import Mathlib

/-!
Verification development for the gemview document-browser widget.

This file gives a shallow embedding, in Lean, of the pure algorithmic core of
the repository: the gemtext line parser, the Gopher-map parser, the Gemini and
Spartan response-header parsers, the data-URL codec and the history stack.
Rust strings are modelled as Lean `String`s (their `data` field is the list of
Unicode scalar values, exactly a Rust `str`'s `chars()` sequence); Rust byte
slices are modelled as `List Nat` with every element < 256; a Rust `panic!`
(or an out-of-bounds slicing operation such as `String::split_off`) is made
explicit as the `Except.error` branch of an `Except` result.
-/

set_option maxRecDepth 100000

/-! ## Rust string primitives -/

/-- Rust `char::is_whitespace`: the Unicode `White_Space` property. -/
def isRustWhitespace (c : Char) : Bool :=
  let n := c.toNat
  (0x09 ≤ n && n ≤ 0x0D) || n == 0x20 || n == 0x85 || n == 0xA0 || n == 0x1680 ||
    (0x2000 ≤ n && n ≤ 0x200A) || n == 0x2028 || n == 0x2029 || n == 0x202F ||
    n == 0x205F || n == 0x3000

/-- Worker for `rustLines`; `acc` holds the current chunk reversed. -/
def rustLinesAux (acc : List Char) : List Char → List String
  | [] => if acc.isEmpty then [] else [⟨acc.reverse⟩]
  | c :: cs =>
    if c = '\n' then
      (if acc.head? = some '\r' then (⟨acc.tail.reverse⟩ : String) else ⟨acc.reverse⟩)
        :: rustLinesAux [] cs
    else rustLinesAux (c :: acc) cs

/-- Rust `str::lines`: split at `\n`, strip one trailing `\r` from each chunk
that was terminated by a `\n`, and drop a final empty chunk produced by a
trailing newline. -/
def rustLines (s : String) : List String := rustLinesAux [] s.data

/-- Rust `str::trim`: drop Unicode whitespace from both ends. -/
def rustTrim (s : String) : String :=
  ⟨((s.data.dropWhile isRustWhitespace).reverse.dropWhile isRustWhitespace).reverse⟩

/-- Worker for `rustSplitOnce`. -/
def splitOnceAux (sep : Char) : List Char → Option (List Char × List Char)
  | [] => none
  | c :: cs =>
    if c = sep then some ([], cs)
    else (splitOnceAux sep cs).map (fun p => (c :: p.1, p.2))

/-- Rust `str::split_once` with a single-character pattern. -/
def rustSplitOnce (s : String) (sep : Char) : Option (String × String) :=
  (splitOnceAux sep s.data).map (fun p => (⟨p.1⟩, ⟨p.2⟩))

/-- Worker for `rustSplitChar`; `acc` holds the current field reversed. -/
def splitOnCharAux (sep : Char) : List Char → List Char → List (List Char)
  | acc, [] => [acc.reverse]
  | acc, c :: cs =>
    if c = sep then acc.reverse :: splitOnCharAux sep [] cs
    else splitOnCharAux sep (c :: acc) cs

/-- Rust `str::split` with a single-character pattern (always ≥ 1 field). -/
def rustSplitChar (s : String) (sep : Char) : List String :=
  (splitOnCharAux sep [] s.data).map (fun l => (⟨l⟩ : String))

/-- Rust `str::starts_with` with a `char` pattern. -/
def startsWithChar (s : String) (c : Char) : Bool :=
  match s.data with
  | [] => false
  | x :: _ => x == c

/-- Rust `str::parse::<u8>`: optional leading `+`, one or more ASCII digits,
value at most 255. -/
def parseU8 (s : String) : Option Nat :=
  let l := match s.data with
    | '+' :: rest => rest
    | l => l
  if l.isEmpty then none
  else if l.all (fun c => c.isDigit) then
    let v := l.foldl (fun a c => a * 10 + (c.toNat - 48)) 0
    if v ≤ 255 then some v else none
  else none

/-! ## UTF-8 -/

/-- UTF-8 encoding of one Unicode scalar value, as byte values. -/
def utf8EncodeChar (c : Char) : List Nat :=
  let n := c.toNat
  if n < 0x80 then [n]
  else if n < 0x800 then [0xC0 + n / 0x40, 0x80 + n % 0x40]
  else if n < 0x10000 then
    [0xE0 + n / 0x1000, 0x80 + n / 0x40 % 0x40, 0x80 + n % 0x40]
  else
    [0xF0 + n / 0x40000, 0x80 + n / 0x1000 % 0x40, 0x80 + n / 0x40 % 0x40,
      0x80 + n % 0x40]

/-- UTF-8 encoding of a string, as byte values. -/
def utf8Encode (s : String) : List Nat := (s.data.map utf8EncodeChar).flatten

/-- Rust `str::len`: the UTF-8 byte length of a string. -/
def strByteLen (s : String) : Nat := (utf8Encode s).length

/-- Whether a byte is a UTF-8 continuation byte (`10xxxxxx`). -/
def isUtf8Cont (b : Nat) : Bool := 0x80 ≤ b && b < 0xC0

/-- Strict UTF-8 decoding of a byte sequence (Rust `core::str::from_utf8`):
rejects overlong forms, surrogates and out-of-range scalar values. -/
def utf8DecodeList : List Nat → Option (List Char)
  | [] => some []
  | b :: bs =>
    if b < 0x80 then (utf8DecodeList bs).map (fun cs => Char.ofNat b :: cs)
    else if b < 0xC2 then none
    else if b < 0xE0 then
      match bs with
      | [] => none
      | b2 :: bs2 =>
        if isUtf8Cont b2 then
          (utf8DecodeList bs2).map
            (fun cs => Char.ofNat ((b - 0xC0) * 0x40 + (b2 - 0x80)) :: cs)
        else none
    else if b < 0xF0 then
      match bs with
      | [] => none
      | b2 :: bs2 =>
        match bs2 with
        | [] => none
        | b3 :: bs3 =>
          if isUtf8Cont b2 && isUtf8Cont b3 then
            if 0x800 ≤ (b - 0xE0) * 0x1000 + (b2 - 0x80) * 0x40 + (b3 - 0x80) &&
                ((b - 0xE0) * 0x1000 + (b2 - 0x80) * 0x40 + (b3 - 0x80) < 0xD800 ||
                  0xE000 ≤ (b - 0xE0) * 0x1000 + (b2 - 0x80) * 0x40 + (b3 - 0x80)) then
              (utf8DecodeList bs3).map
                (fun cs =>
                  Char.ofNat ((b - 0xE0) * 0x1000 + (b2 - 0x80) * 0x40 + (b3 - 0x80)) :: cs)
            else none
          else none
    else if b < 0xF5 then
      match bs with
      | [] => none
      | b2 :: bs2 =>
        match bs2 with
        | [] => none
        | b3 :: bs3 =>
          match bs3 with
          | [] => none
          | b4 :: bs4 =>
            if isUtf8Cont b2 && isUtf8Cont b3 && isUtf8Cont b4 then
              if 0x10000 ≤ (b - 0xF0) * 0x40000 + (b2 - 0x80) * 0x1000 +
                  (b3 - 0x80) * 0x40 + (b4 - 0x80) &&
                  (b - 0xF0) * 0x40000 + (b2 - 0x80) * 0x1000 +
                  (b3 - 0x80) * 0x40 + (b4 - 0x80) < 0x110000 then
                (utf8DecodeList bs4).map
                  (fun cs =>
                    Char.ofNat ((b - 0xF0) * 0x40000 + (b2 - 0x80) * 0x1000 +
                      (b3 - 0x80) * 0x40 + (b4 - 0x80)) :: cs)
              else none
            else none
    else none

/-- Strict UTF-8 decoding to a `String`. -/
def utf8DecodeStr (bs : List Nat) : Option String := (utf8DecodeList bs).map String.mk

/-! ## Gemtext parser (src/scheme/gemini/parser.rs) -/

namespace Gemtext

/-- The node type produced by the gemtext parser (`GemtextNode`). -/
inductive GemtextNode where
  | text (s : String)
  | link (url : String) (display : Option String)
  | prompt (url : String) (display : Option String)
  | heading (s : String)
  | subHeading (s : String)
  | subSubHeading (s : String)
  | listItem (s : String)
  | blockquote (s : String)
  | preformatted (body : String) (alt : Option String)
  | emptyLine
deriving DecidableEq, Repr

/-- The per-line parser state (`ParseState`). -/
inductive PState where
  | searching
  | text
  | firstLinkChar
  | secondLinkChar
  | secondPromptChar
  | linkLink
  | promptLink
  | linkDesc
  | promptDesc
  | listWaitForSpace
  | listItem
  | firstTick
  | secondTick
  | preformattedTextType
  | headingStart
  | heading
  | subHeadingStart
  | subHeading
  | subSubHeadingStart
  | subSubHeading
  | blockquoteStart
  | blockquote
deriving DecidableEq, Repr

/-- One step of the character state machine inside `parse_gemtext`'s per-line
loop. The mutable locals `temp1`, `temp2` and the outer-scope
`preformatted_text_type` are threaded as `t1`, `t2`, `pt`. -/
def lineStep (st : PState) (t1 t2 pt : List Char) (c : Char) :
    PState × List Char × List Char × List Char :=
  match st with
  | .searching =>
    if c = '=' then (.firstLinkChar, t1, t2, pt)
    else if c = '*' then (.listWaitForSpace, t1, t2, pt)
    else if c = '`' then (.firstTick, t1, t2, pt)
    else if c = '#' then (.headingStart, t1, t2, pt)
    else if c = '>' then (.blockquoteStart, t1, t2, pt)
    else (.text, t1, t2, pt)
  | .text => (.text, t1, t2, pt)
  | .firstLinkChar =>
    if c = '>' then (.secondLinkChar, t1, t2, pt)
    else if c = ':' then (.secondPromptChar, t1, t2, pt)
    else (.text, t1, t2, pt)
  | .secondLinkChar =>
    if isRustWhitespace c then (.secondLinkChar, t1, t2, pt)
    else (.linkLink, t1 ++ [c], t2, pt)
  | .secondPromptChar =>
    if isRustWhitespace c then (.secondPromptChar, t1, t2, pt)
    else (.promptLink, t1 ++ [c], t2, pt)
  | .linkLink =>
    if isRustWhitespace c then (.linkDesc, t1, t2, pt)
    else (.linkLink, t1 ++ [c], t2, pt)
  | .promptLink =>
    if isRustWhitespace c then (.promptDesc, t1, t2, pt)
    else (.promptLink, t1 ++ [c], t2, pt)
  | .linkDesc => (.linkDesc, t1, t2 ++ [c], pt)
  | .promptDesc => (.promptDesc, t1, t2 ++ [c], pt)
  | .listWaitForSpace =>
    if isRustWhitespace c then (.listItem, t1, t2, pt)
    else (.text, t1, t2, pt)
  | .listItem => (.listItem, t1 ++ [c], t2, pt)
  | .heading => (.heading, t1 ++ [c], t2, pt)
  | .subHeading => (.subHeading, t1 ++ [c], t2, pt)
  | .subSubHeading => (.subSubHeading, t1 ++ [c], t2, pt)
  | .blockquote => (.blockquote, t1 ++ [c], t2, pt)
  | .firstTick =>
    if c = '`' then (.secondTick, t1, t2, pt) else (.text, t1, t2, pt)
  | .secondTick =>
    if c = '`' then (.preformattedTextType, t1, t2, []) else (.text, t1, t2, pt)
  | .preformattedTextType => (.preformattedTextType, t1, t2, pt ++ [c])
  | .headingStart =>
    if c = '#' then (.subHeadingStart, t1, t2, pt)
    else if !isRustWhitespace c then (.text, t1, t2, pt)
    else (.heading, t1, t2, pt)
  | .subHeadingStart =>
    if c = '#' then (.subSubHeadingStart, t1, t2, pt)
    else if !isRustWhitespace c then (.text, t1, t2, pt)
    else (.subHeading, t1, t2, pt)
  | .subSubHeadingStart =>
    if c = '#' then (.subSubHeading, t1, t2, pt)
    else if !isRustWhitespace c then (.text, t1, t2, pt)
    else (.subSubHeading, t1, t2, pt)
  | .blockquoteStart =>
    if isRustWhitespace c then (.blockquote, t1, t2, pt)
    else (.text, t1, t2, pt)

/-- Run the per-line character loop. The `Text` state executes `break` in the
source, so the loop stops as soon as it is entered with that state. -/
def lineRun : PState → List Char → List Char → List Char → List Char →
    PState × List Char × List Char × List Char
  | st, t1, t2, pt, [] => (st, t1, t2, pt)
  | st, t1, t2, pt, c :: cs =>
    if st = .text then (st, t1, t2, pt)
    else
      let r := lineStep st t1 t2 pt c
      lineRun r.1 r.2.1 r.2.2.1 r.2.2.2 cs

/-- Outcome of the post-loop cleanup `match`: push one node, or switch into
preformatted mode. -/
inductive LineOut where
  | push (n : GemtextNode)
  | openPre (hasType : Bool)
deriving DecidableEq, Repr

/-- The cleanup `match` at the end of `parse_gemtext`'s line loop. The states
`Searching`, `FirstLinkChar` and `ListWaitForSpace` fall to the
`panic!("Invalid state")` arm, modelled as `Except.error`. -/
def lineCleanup (st : PState) (t1 t2 : List Char) (line : String) (pt : List Char) :
    Except Unit LineOut :=
  match st with
  | .text => .ok (.push (.text line))
  | .secondLinkChar => .ok (.push (.text "="))
  | .secondPromptChar => .ok (.push (.text "="))
  | .linkLink => .ok (.push (.link ⟨t1⟩ none))
  | .promptLink => .ok (.push (.link ⟨t1⟩ none))
  | .linkDesc =>
    if t2.isEmpty then .ok (.push (.link ⟨t1⟩ none))
    else .ok (.push (.link ⟨t1⟩ (some ⟨t2⟩)))
  | .promptDesc =>
    if t2.isEmpty then .ok (.push (.prompt ⟨t1⟩ none))
    else .ok (.push (.prompt ⟨t1⟩ (some ⟨t2⟩)))
  | .listItem => .ok (.push (.listItem ⟨t1⟩))
  | .firstTick => .ok (.push (.text "`"))
  | .secondTick => .ok (.push (.text "``"))
  | .preformattedTextType => .ok (.openPre (!pt.isEmpty))
  | .heading => .ok (.push (.heading ⟨t1⟩))
  | .headingStart => .ok (.push (.text "#"))
  | .subHeading => .ok (.push (.subHeading ⟨t1⟩))
  | .subHeadingStart => .ok (.push (.text "##"))
  | .subSubHeading => .ok (.push (.subSubHeading ⟨t1⟩))
  | .subSubHeadingStart => .ok (.push (.text "###"))
  | .blockquote => .ok (.push (.blockquote ⟨t1⟩))
  | .blockquoteStart => .ok (.push (.blockquote ""))
  | .searching => .error ()
  | .firstLinkChar => .error ()
  | .listWaitForSpace => .error ()

/-- The line loop of `parse_gemtext` over the already-split lines.
`inPre`, `hasType`, `pText`, `pType` are the four mutable flags/buffers
declared before the loop (`is_in_preformatted`, `preformatted_text_has_type`,
`preformatted_text`, `preformatted_text_type`). -/
def parseLinesGem (inPre hasType : Bool) (pText pType : List Char) :
    List String → Except Unit (List GemtextNode)
  | [] => .ok []
  | l :: ls =>
    if inPre then
      if ['`', '`', '`'].isPrefixOf l.data then
        (parseLinesGem false hasType [] pType ls).map
          (fun rest =>
            (if hasType then GemtextNode.preformatted ⟨pText⟩ (some ⟨pType⟩)
              else GemtextNode.preformatted ⟨pText⟩ none) :: rest)
      else parseLinesGem true hasType (pText ++ l.data ++ ['\n']) pType ls
    else if (rustTrim l).data.isEmpty then
      (parseLinesGem false hasType pText pType ls).map
        (fun rest => .emptyLine :: rest)
    else
      let r := lineRun .searching [] [] pType l.data
      (lineCleanup r.1 r.2.1 r.2.2.1 l r.2.2.2).bind
        (fun out =>
          match out with
          | .push n =>
            (parseLinesGem false hasType pText r.2.2.2 ls).map (fun rest => n :: rest)
          | .openPre ht => parseLinesGem true ht pText r.2.2.2 ls)

/-- The public `parse_gemtext` entry point. A `panic!` is the `error` case. -/
def parseGemtext (text : String) : Except Unit (List GemtextNode) :=
  parseLinesGem false false [] [] (rustLines text)

end Gemtext

/-! ## Gopher-map parser (src/scheme/gopher/parser.rs, mod.rs) -/

namespace Gopher

/-- A Gopher link's four tab-separated fields (`Link`). -/
structure Link where
  display : String
  path : String
  host : String
  port : String
deriving DecidableEq, Repr

/-- An HTTP link found in a Gopher map (`ExternLink`). -/
structure ExternLink where
  display : String
  url : String
deriving DecidableEq, Repr

/-- The classification of one Gopher-map line (`LineType`). -/
inductive LineType where
  | text (s : String)
  | link (l : Link)
  | query (l : Link)
  | http (l : ExternLink)
deriving DecidableEq, Repr

/-- Rust `String::split_off(1)`: panics (`error`) when the string is empty or
its first character is not a one-byte (ASCII) character, since byte index 1 is
then out of bounds or not a character boundary; otherwise returns the tail. -/
def splitOff1 (s : String) : Except Unit String :=
  match s.data with
  | [] => .error ()
  | c :: cs => if c.toNat < 0x80 then .ok ⟨cs⟩ else .error ()

/-- `Link::from_line`: split on tabs, drop the type character from the first
field, and require at least four fields. -/
def Link.fromLine (line : String) : Except Unit (Option Link) :=
  match rustSplitChar line '\t' with
  | [] => .ok none
  | d :: rest =>
    match splitOff1 d with
    | .error e => .error e
    | .ok display =>
      match rest with
      | p :: h :: pt :: _ => .ok (some ⟨display, p, h, pt⟩)
      | _ => .ok none

/-- `LineType::parse_line`. `String::remove(0)` on an `i` line's first field
would panic on an empty string, which cannot happen since that field starts
with `i`; the case is still modelled as `error`. -/
def LineType.parseLine (line : String) : Except Unit (Option LineType) :=
  if line = "." then .ok none
  else if startsWithChar line 'i' then
    match rustSplitChar line '\t' with
    | [] => .error ()
    | f :: _ =>
      match f.data with
      | [] => .error ()
      | _ :: restChars => .ok (some (.text ⟨restChars⟩))
  else if startsWithChar line '7' then
    match Link.fromLine line with
    | .error e => .error e
    | .ok o => .ok (o.map .query)
  else if startsWithChar line 'h' then
    match rustSplitChar line '\t' with
    | [] => .error ()
    | d :: rest =>
      match splitOff1 d with
      | .error e => .error e
      | .ok display =>
        match rest with
        | next :: _ =>
          if ['U', 'R', 'L', ':'].isPrefixOf next.data then
            match rustSplitOnce next ':' with
            | some p => .ok (some (.http ⟨display, p.2⟩))
            | none =>
              match Link.fromLine line with
              | .error e => .error e
              | .ok o => .ok (o.map .link)
          else
            match Link.fromLine line with
            | .error e => .error e
            | .ok o => .ok (o.map .link)
        | [] =>
          match Link.fromLine line with
          | .error e => .error e
          | .ok o => .ok (o.map .link)
  else
    match Link.fromLine line with
    | .error e => .error e
    | .ok o => .ok (o.map .link)

/-- The loop body of `GopherMap::parse` over the already-split lines. -/
def parseMapLines : List String → Except Unit (List LineType)
  | [] => .ok []
  | l :: ls =>
    (LineType.parseLine l).bind
      (fun r =>
        (parseMapLines ls).map
          (fun rest =>
            match r with
            | some x => x :: rest
            | none => rest))

/-- `GopherMap::parse`, with the content given by its text. -/
def parseMap (content : String) : Except Unit (List LineType) :=
  parseMapLines (rustLines content)

/-- Whether a line starts with one of the item-type characters recognized by
`GopherMap::is_map`. -/
def goodGopherStart (line : String) : Bool :=
  ['0', '1', '2', '3', '4', '5', '6', '7', '8', '9', '+', 'g', 'I', 'T', ':',
    ';', '<', 'd', 'h', 'i', 's'].any (startsWithChar line)

/-- The line scan of `GopherMap::is_map`: stop at the first `"."` line, fail on
the first line with an unrecognized leading character. -/
def isMapLines : List String → Bool
  | [] => true
  | l :: ls =>
    if l = "." then true
    else if !goodGopherStart l then false
    else isMapLines ls

/-- `GopherMap::is_map`: requires a `text`-prefixed MIME type, then scans the
lines of the content's text. -/
def isMap (mime : String) (page : String) : Bool :=
  if ['t', 'e', 'x', 't'].isPrefixOf mime.data then isMapLines (rustLines page)
  else false

end Gopher

/-! ## Gemini protocol (src/scheme/gemini/protocol.rs) -/

namespace Gemini

/-- The Gemini status code (`StatusCode`), a class with a subcode digit, or
`unknown` carrying the raw value. -/
inductive StatusCode where
  | input (n : Nat)
  | success (n : Nat)
  | redirect (n : Nat)
  | temporaryFailure (n : Nat)
  | permanentFailure (n : Nat)
  | clientCertRequired (n : Nat)
  | unknown (n : Nat)
deriving DecidableEq, Repr

/-- `impl From<u8> for StatusCode`: values above 99 are `unknown`; otherwise
the tens digit picks the class and the units digit is the subcode, tens
digits outside 1–6 giving `unknown` with the raw value. -/
def StatusCode.fromU8 (i : Nat) : StatusCode :=
  if i > 99 then .unknown i
  else
    let firstDigit := i % 10
    match i / 10 with
    | 1 => .input firstDigit
    | 2 => .success firstDigit
    | 3 => .redirect firstDigit
    | 4 => .temporaryFailure firstDigit
    | 5 => .permanentFailure firstDigit
    | 6 => .clientCertRequired firstDigit
    | _ => .unknown i

/-- `impl From<StatusCode> for u8`. -/
def StatusCode.toU8 : StatusCode → Nat
  | .input i => 10 + i
  | .success i => 20 + i
  | .redirect i => 30 + i
  | .temporaryFailure i => 40 + i
  | .permanentFailure i => 50 + i
  | .clientCertRequired i => 60 + i
  | .unknown i => i

/-- `ResponseParseError`. -/
inductive ResponseParseError where
  | emptyResponse
  | invalidResponseHeader
deriving DecidableEq, Repr

/-- A parsed Gemini response (`Response`): status, meta and body bytes. -/
structure Response where
  status : StatusCode
  meta : String
  data : List Nat
deriving DecidableEq, Repr

/-- Index of the first LF byte, or 0 when there is none — exactly the
`first_lf` loop of `Response::try_from`, whose `first_lf` stays 0 when no
`\n` is found. -/
def findLF : List Nat → Option Nat
  | [] => none
  | b :: bs => if b = 10 then some 0 else (findLF bs).map (· + 1)

/-- The `first_lf` value computed by the Gemini `Response::try_from` loop. -/
def firstLF (bs : List Nat) : Nat := (findLF bs).getD 0

/-- `impl TryFrom<&[u8]> for Response` (Gemini): empty input is
`EmptyResponse`; `first_lf == 0` (no `\n`, or `\n` first) is invalid; the
header must be UTF-8 and contain a space; the trimmed meta must be at most
1024 bytes; the status must parse as `u8`. -/
def Response.tryFrom (raw : List Nat) : Except ResponseParseError Response :=
  if raw.isEmpty then .error .emptyResponse
  else if firstLF raw = 0 then .error .invalidResponseHeader
  else
    match utf8DecodeStr (raw.take (firstLF raw)) with
    | none => .error .invalidResponseHeader
    | some header =>
      match rustSplitOnce header ' ' with
      | none => .error .invalidResponseHeader
      | some (statusStr, metaRaw) =>
        let meta := rustTrim metaRaw
        if strByteLen meta > 1024 then .error .invalidResponseHeader
        else
          match parseU8 statusStr with
          | none => .error .invalidResponseHeader
          | some code =>
            .ok ⟨StatusCode.fromU8 code, meta, raw.drop (firstLF raw + 1)⟩

end Gemini

/-! ## Spartan protocol (src/scheme/spartan/mod.rs) -/

namespace Spartan

/-- The Spartan status class (`Status`). -/
inductive Status where
  | success
  | redirect
  | clientError
  | serverError
deriving DecidableEq, Repr

/-- `impl TryFrom<u8> for Status`: only 2–5 are valid. -/
def Status.tryFromU8 (code : Nat) : Except Gemini.ResponseParseError Status :=
  match code with
  | 2 => .ok .success
  | 3 => .ok .redirect
  | 4 => .ok .clientError
  | 5 => .ok .serverError
  | _ => .error .invalidResponseHeader

/-- A parsed Spartan response (`Response`). -/
structure Response where
  status : Status
  meta : String
  data : List Nat
deriving DecidableEq, Repr

/-- `impl TryFrom<&Vec<u8>> for Response` (Spartan): empty input is
`EmptyResponse`; a missing `\n` is invalid; the header must be UTF-8 and
contain a space; the meta is trimmed but its length is never checked; the
status must parse as `u8` and be one of 2–5. -/
def Response.tryFrom (raw : List Nat) : Except Gemini.ResponseParseError Response :=
  if raw.isEmpty then .error .emptyResponse
  else
    match Gemini.findLF raw with
    | none => .error .invalidResponseHeader
    | some lf =>
      match utf8DecodeStr (raw.take lf) with
      | none => .error .invalidResponseHeader
      | some header =>
        match rustSplitOnce header ' ' with
        | none => .error .invalidResponseHeader
        | some (statusStr, metaRaw) =>
          let meta := rustTrim metaRaw
          match parseU8 statusStr with
          | none => .error .invalidResponseHeader
          | some code =>
            match Status.tryFromU8 code with
            | .error e => .error e
            | .ok status => .ok ⟨status, meta, raw.drop (lf + 1)⟩

end Spartan

/-! ## Data URLs (src/scheme/data.rs) -/

namespace DataScheme

/-- The recognized data-URL MIME types (`MimeType`). -/
inductive MimeType where
  | textPlain
  | textGemini
  | imageJpeg
  | imagePng
  | imageSvg
  | imageOther
  | unknown
deriving DecidableEq, Repr

/-- A parsed data URL (`DataUrl`). -/
structure DataUrl where
  mime : MimeType
  base64 : Bool
  data : String
deriving DecidableEq, Repr

/-- A decoded data-URL payload (`Data`). -/
inductive Data where
  | text (s : String)
  | bytes (bs : List Nat)
deriving DecidableEq, Repr

/-- Rust `str::contains` with a literal pattern, on the character level. -/
def listHasInfix (pat : List Char) : List Char → Bool
  | [] => pat.isEmpty
  | c :: cs => pat.isPrefixOf (c :: cs) || listHasInfix pat cs

/-- `impl TryFrom<&str> for DataUrl`: split scheme at `:`, require `data`,
split metadata from payload at `,`, detect `base64` anywhere in the metadata,
and map the part before `;` to a MIME type. -/
def DataUrl.tryFrom (url : String) : Except String DataUrl :=
  match rustSplitOnce url ':' with
  | none => .error "Malformed url"
  | some (scheme, remainder) =>
    if scheme ≠ "data" then .error "Not a data url"
    else
      match rustSplitOnce remainder ',' with
      | none => .error "Malformed url"
      | some (mimeStr, dat) =>
        let b64 := listHasInfix ['b', 'a', 's', 'e', '6', '4'] mimeStr.data
        let mime0 := match rustSplitOnce mimeStr ';' with
          | some p => p.1
          | none => mimeStr
        let mt :=
          if mime0 = "text/plain" then MimeType.textPlain
          else if mime0 = "text/gemini" then MimeType.textGemini
          else if mime0 = "image/jpeg" then MimeType.imageJpeg
          else if mime0 = "image/png" then MimeType.imagePng
          else if mime0 = "image/svg" then MimeType.imageSvg
          else if ['i', 'm', 'a', 'g', 'e'].isPrefixOf mime0.data then MimeType.imageOther
          else MimeType.unknown
        .ok ⟨mt, b64, dat⟩

/-- The URL-safe base64 alphabet (RFC 4648 §5: `A–Z a–z 0–9 - _`), the one the
code uses through the base64 crate's `general_purpose::URL_SAFE` engine. -/
def b64UrlIndex (c : Char) : Option Nat :=
  let n := c.toNat
  if 65 ≤ n && n ≤ 90 then some (n - 65)
  else if 97 ≤ n && n ≤ 122 then some (n - 97 + 26)
  else if 48 ≤ n && n ≤ 57 then some (n - 48 + 52)
  else if c = '-' then some 62
  else if c = '_' then some 63
  else none

/-- Base64 decoding over a given alphabet with required canonical padding and
zero trailing bits, as the base64 crate's `GeneralPurpose` engine with the
`PAD` config checks them. -/
def b64DecodeWith (idx : Char → Option Nat) : List Char → Option (List Nat)
  | [] => some []
  | c1 :: c2 :: c3 :: c4 :: rest =>
    match idx c1, idx c2 with
    | some v1, some v2 =>
      if c3 = '=' then
        if c4 = '=' && rest.isEmpty then
          if v2 % 16 = 0 then some [v1 * 4 + v2 / 16] else none
        else none
      else
        match idx c3 with
        | some v3 =>
          if c4 = '=' then
            if rest.isEmpty then
              if v3 % 4 = 0 then some [v1 * 4 + v2 / 16, v2 % 16 * 16 + v3 / 4]
              else none
            else none
          else
            match idx c4 with
            | some v4 =>
              match b64DecodeWith idx rest with
              | some bs =>
                some ((v1 * 4 + v2 / 16) :: (v2 % 16 * 16 + v3 / 4) ::
                  (v3 % 4 * 64 + v4) :: bs)
              | none => none
            | none => none
        | none => none
    | _, _ => none
  | _ => none

/-- `general_purpose::URL_SAFE.decode`, the decoder the code calls. -/
def b64UrlSafeDecode (s : String) : Option (List Nat) := b64DecodeWith b64UrlIndex s.data

/-- Modelled from the spec: the spec's §3/§4.3 "standard-alphabet base64"
decoder (RFC 4648 §4: `A–Z a–z 0–9 + /`), stated only for comparison with the
URL-safe decoder the code actually uses. -/
def b64StandardIndex (c : Char) : Option Nat :=
  let n := c.toNat
  if 65 ≤ n && n ≤ 90 then some (n - 65)
  else if 97 ≤ n && n ≤ 122 then some (n - 97 + 26)
  else if 48 ≤ n && n ≤ 57 then some (n - 48 + 52)
  else if c = '+' then some 62
  else if c = '/' then some 63
  else none

/-- Modelled from the spec: standard-alphabet base64 decoding. -/
def b64StandardDecode (s : String) : Option (List Nat) :=
  b64DecodeWith b64StandardIndex s.data

/-- Value of an ASCII hex digit, or `none`. -/
def hexVal (c : Char) : Option Nat :=
  let n := c.toNat
  if 48 ≤ n && n ≤ 57 then some (n - 48)
  else if 97 ≤ n && n ≤ 102 then some (n - 97 + 10)
  else if 65 ≤ n && n ≤ 70 then some (n - 65 + 10)
  else none

/-- The `urlencoding` crate's percent-decoding to bytes: `%XX` with two hex
digits becomes one byte, anything else passes through as its UTF-8 bytes. -/
def percentDecodeBytes : List Char → List Nat
  | [] => []
  | '%' :: a :: b :: rest =>
    match hexVal a, hexVal b with
    | some ha, some hb => (ha * 16 + hb) :: percentDecodeBytes rest
    | _, _ => utf8EncodeChar '%' ++ percentDecodeBytes (a :: b :: rest)
  | c :: rest => utf8EncodeChar c ++ percentDecodeBytes rest

/-- `urlencoding::decode`: percent-decode, then require valid UTF-8. -/
def urlDecode (s : String) : Option String := utf8DecodeStr (percentDecodeBytes s.data)

/-- `DataUrl::decode`: text MIME types base64-decode (URL-safe alphabet) then
UTF-8 decode, or percent-decode; image MIME types base64-decode or pass the
raw bytes; `Unknown` always fails. Failures are the `error` case. -/
def DataUrl.decode (d : DataUrl) : Except Unit Data :=
  match d.mime with
  | .textPlain | .textGemini =>
    if d.base64 then
      match b64UrlSafeDecode d.data with
      | some bs =>
        match utf8DecodeStr bs with
        | some s => .ok (.text s)
        | none => .error ()
      | none => .error ()
    else
      match urlDecode d.data with
      | some s => .ok (.text s)
      | none => .error ()
  | .unknown => .error ()
  | _ =>
    if d.base64 then
      match b64UrlSafeDecode d.data with
      | some bs => .ok (.bytes bs)
      | none => .error ()
    else .ok (.bytes (utf8Encode d.data))

end DataScheme

/-! ## History (src/imp/history.rs and lib.rs `append_history`) -/

/-- The browser history (`History`): current uri, back stack and forward
stack; stacks grow at the end, as a Rust `Vec`. -/
structure History where
  uri : String
  back : List String
  forward : List String
deriving DecidableEq, Repr

/-- `History::default`. -/
def initHistory : History := ⟨"about:blank", [], []⟩

/-- `History::append`: push the old current uri, set the new one, clear the
forward stack. -/
def History.append (h : History) (uri : String) : History :=
  ⟨uri, h.back ++ [h.uri], []⟩

/-- `History::previous`: pop the back stack, pushing the old current uri onto
the forward stack. -/
def History.previous (h : History) : Option String × History :=
  match h.back.getLast? with
  | some prev => (some prev, ⟨prev, h.back.dropLast, h.forward ++ [h.uri]⟩)
  | none => (none, h)

/-- `History::next`: pop the forward stack, pushing the old current uri onto
the back stack. -/
def History.next (h : History) : Option String × History :=
  match h.forward.getLast? with
  | some nxt => (some nxt, ⟨nxt, h.back ++ [h.uri], h.forward.dropLast⟩)
  | none => (none, h)

/-- `GemView::append_history` (lib.rs): append only when the uri differs from
the current one. -/
def appendHistory (h : History) (uri : String) : History :=
  if h.uri ≠ uri then h.append uri else h

/-! ## Concrete evaluations of the embedded definitions -/

example : Gemtext.parseGemtext "=>" = .ok [.text "="] := by rfl
example : Gemtext.parseGemtext "=" = .error () := by rfl
example : Gemtext.parseGemtext "# Hi\nhello\n\n> q" =
    .ok [.heading "Hi", .text "hello", .emptyLine, .blockquote "q"] := by rfl
example : Gemtext.parseGemtext "```\nfn x\n```" =
    .ok [.preformatted "fn x\n" none] := by rfl
example : Gemtext.parseGemtext "=> gemini://a b c" =
    .ok [.link "gemini://a" (some "b c")] := by rfl
example : Gopher.LineType.parseLine "" = .error () := by rfl
example : Gopher.parseMap "\n" = .error () := by rfl
example : Gopher.LineType.parseLine "ihello" = .ok (some (.text "hello")) := by rfl
example : Gopher.parseMap ".\nifoo" = .ok [.text "foo"] := by rfl
example : Gopher.LineType.parseLine "1docs\t/docs\texample.com\t70" =
    .ok (some (.link ⟨"docs", "/docs", "example.com", "70"⟩)) := by rfl
example : Gopher.LineType.parseLine "7find\t/q\thost\t70" =
    .ok (some (.query ⟨"find", "/q", "host", "70"⟩)) := by rfl
example : Gopher.LineType.parseLine "hweb\tURL:http://x" =
    .ok (some (.http ⟨"web", "http://x"⟩)) := by rfl
example : Gopher.LineType.parseLine "0short\tonly" = .ok none := by rfl
example : Gopher.isMap "text/plain" "ia\n0b\t/\th\t70\n." = true := by rfl
example : Gopher.isMap "text/plain" "za" = false := by rfl
example : Gemini.StatusCode.fromU8 18 = .input 8 := by rfl
example : Gemini.Response.tryFrom (utf8Encode "20 text/gemini\r\n# Hello!") =
    .ok ⟨.success 0, "text/gemini", utf8Encode "# Hello!"⟩ := by rfl
example : Gemini.Response.tryFrom [] = .error .emptyResponse := by rfl
example : Gemini.Response.tryFrom (utf8Encode "20text/gemini\r\n#Hello!") =
    .error .invalidResponseHeader := by rfl
example : Spartan.Response.tryFrom (utf8Encode "2 text/gemini 0\r\nLorum Ipsum") =
    .ok ⟨.success, "text/gemini 0", utf8Encode "Lorum Ipsum"⟩ := by rfl
example : DataScheme.DataUrl.tryFrom "data:text/plain;base64,R05VIGlzIG5vdCBVbml4Cg==" =
    .ok ⟨.textPlain, true, "R05VIGlzIG5vdCBVbml4Cg=="⟩ := by rfl
example : DataScheme.DataUrl.decode ⟨.textPlain, true, "R05VIGlzIG5vdCBVbml4Cg=="⟩ =
    .ok (.text "GNU is not Unix\n") := by rfl
example : DataScheme.DataUrl.tryFrom "data:text/plain,GNU%20is%20not%20Unix" =
    .ok ⟨.textPlain, false, "GNU%20is%20not%20Unix"⟩ := by rfl
example : DataScheme.DataUrl.decode ⟨.textPlain, false, "GNU%20is%20not%20Unix"⟩ =
    .ok (.text "GNU is not Unix") := by rfl
example : DataScheme.DataUrl.decode ⟨.textPlain, true, "Pj4+"⟩ = .error () := by rfl
example : DataScheme.b64StandardDecode "Pj4+" = some [62, 62, 62] := by rfl
example : appendHistory initHistory "a" = ⟨"a", ["about:blank"], []⟩ := by rfl

/-! ## Theorems: easy concrete claims -/

/-- C1. The claim says `parse_gemtext` never panics or errors for any input
string; but the cleanup `match` omits the states `FirstLinkChar` and
`ListWaitForSpace`, so the single-character lines `"="` and `"*"` reach the
`panic!("Invalid state")` arm. This evaluates the embedded parser at those
failing inputs, exhibiting the panic (`Except.error`). -/
theorem c1_parse_gemtext_panics :
    (Gemtext.parseGemtext "=" = .error ()) ∧ (Gemtext.parseGemtext "*" = .error ()) :=
  ⟨rfl, rfl⟩

/-- C5. History semantics: from the `"about:blank"` initial state,
`append "a"` then `append "b"` then `previous` makes `"a"` current and pushes
`"b"` onto the forward stack; `next` then returns `"b"`; and appending the
current uri is a no-op on the whole state, in particular on the back stack. -/
theorem c5_history_semantics :
    (appendHistory initHistory "a" = ⟨"a", ["about:blank"], []⟩)
    ∧ (appendHistory ⟨"a", ["about:blank"], []⟩ "b" = ⟨"b", ["about:blank", "a"], []⟩)
    ∧ (History.previous ⟨"b", ["about:blank", "a"], []⟩ =
        (some "a", ⟨"a", ["about:blank"], ["b"]⟩))
    ∧ (History.next ⟨"a", ["about:blank"], ["b"]⟩ =
        (some "b", ⟨"b", ["about:blank", "a"], []⟩))
    ∧ (∀ h : History, appendHistory h h.uri = h) := by
  refine ⟨rfl, rfl, rfl, rfl, fun h => ?_⟩
  simp [appendHistory]

/-- C6, counterexample. The claim says base64 text payloads decode via
standard-alphabet base64; under that alphabet the payload `"Pj4+"` of
`data:text/plain;base64,Pj4+` would decode to `">>>"`, but the code decodes
with the URL-safe alphabet (`general_purpose::URL_SAFE`), where `+` is not a
symbol, so decoding this data URL fails. -/
theorem c6_standard_alphabet_counterexample :
    (DataScheme.DataUrl.tryFrom "data:text/plain;base64,Pj4+" =
      .ok ⟨.textPlain, true, "Pj4+"⟩)
    ∧ (DataScheme.DataUrl.decode ⟨.textPlain, true, "Pj4+"⟩ = .error ())
    ∧ (DataScheme.b64StandardDecode "Pj4+" = some [62, 62, 62])
    ∧ (utf8DecodeStr [62, 62, 62] = some ">>>") :=
  ⟨rfl, rfl, rfl, rfl⟩

/-- C6, amended. Data-URL decoding uses URL-safe-alphabet base64 (not the
standard alphabet — a payload containing `+` fails) followed by UTF-8
decoding for base64 text payloads, and percent-decoding otherwise; both
concrete examples of the claim decode exactly as stated. -/
theorem c6_data_url_decoding :
    (DataScheme.DataUrl.tryFrom "data:text/plain;base64,R05VIGlzIG5vdCBVbml4Cg==" =
      .ok ⟨.textPlain, true, "R05VIGlzIG5vdCBVbml4Cg=="⟩)
    ∧ (DataScheme.DataUrl.decode ⟨.textPlain, true, "R05VIGlzIG5vdCBVbml4Cg=="⟩ =
      .ok (.text "GNU is not Unix\n"))
    ∧ (DataScheme.DataUrl.tryFrom "data:text/plain,GNU%20is%20not%20Unix" =
      .ok ⟨.textPlain, false, "GNU%20is%20not%20Unix"⟩)
    ∧ (DataScheme.DataUrl.decode ⟨.textPlain, false, "GNU%20is%20not%20Unix"⟩ =
      .ok (.text "GNU is not Unix"))
    ∧ (DataScheme.DataUrl.decode ⟨.textPlain, true, "Pj4+"⟩ = .error ()) :=
  ⟨rfl, rfl, rfl, rfl, rfl⟩

/-- C9. StatusCode conversion round trip: `from(18) = Input(8)` and back to
18; for every `u8` the `u8 → StatusCode → u8` round trip is the identity;
tens digits 1–6 select the classes with the units digit as subcode; and every
out-of-range value (0–9 and 70–255) maps to `Unknown` with the raw value. -/
theorem c9_status_code_roundtrip :
    (Gemini.StatusCode.fromU8 18 = .input 8)
    ∧ ((Gemini.StatusCode.fromU8 18).toU8 = 18)
    ∧ (∀ i : Fin 256, (Gemini.StatusCode.fromU8 i.val).toU8 = i.val)
    ∧ (∀ b : Fin 10, Gemini.StatusCode.fromU8 (10 + b.val) = .input b.val
        ∧ Gemini.StatusCode.fromU8 (20 + b.val) = .success b.val
        ∧ Gemini.StatusCode.fromU8 (30 + b.val) = .redirect b.val
        ∧ Gemini.StatusCode.fromU8 (40 + b.val) = .temporaryFailure b.val
        ∧ Gemini.StatusCode.fromU8 (50 + b.val) = .permanentFailure b.val
        ∧ Gemini.StatusCode.fromU8 (60 + b.val) = .clientCertRequired b.val)
    ∧ (∀ b : Fin 10, Gemini.StatusCode.fromU8 b.val = .unknown b.val)
    ∧ (∀ i : Fin 186, Gemini.StatusCode.fromU8 (70 + i.val) = .unknown (70 + i.val)) := by
  decide

/-- C10. Degraded marker-only lines: `"=>"` with no URL parses to exactly one
node `Text("=")` (not the original line), `"=:"` also to `Text("=")`, and one
or two backticks to `Text("` + "`" + `")` and `Text("``")`. -/
theorem c10_degraded_marker_lines :
    (Gemtext.parseGemtext "=>" = .ok [.text "="])
    ∧ (Gemtext.parseGemtext "=:" = .ok [.text "="])
    ∧ (Gemtext.parseGemtext "`" = .ok [.text "`"])
    ∧ (Gemtext.parseGemtext "``" = .ok [.text "``"]) :=
  ⟨rfl, rfl, rfl, rfl⟩

/-! ## Helper lemmas -/

theorem stringDataMk (l : List Char) : (⟨l⟩ : String).data = l := rfl

theorem findLF_eq_none_of {bs : List Nat} (h : (10 : Nat) ∉ bs) :
    Gemini.findLF bs = none := by
  induction bs with
  | nil => rfl
  | cons b t ih =>
    have hb : b ≠ 10 := fun e => h (by simp [e])
    have ht : (10 : Nat) ∉ t := fun m => h (List.mem_cons_of_mem _ m)
    simp [Gemini.findLF, hb, ih ht]

theorem findLF_append_of {l : List Nat} (rest : List Nat) (h : (10 : Nat) ∉ l) :
    Gemini.findLF (l ++ 10 :: rest) = some l.length := by
  induction l with
  | nil => simp [Gemini.findLF]
  | cons b t ih =>
    have hb : b ≠ 10 := fun e => h (by simp [e])
    have ht : (10 : Nat) ∉ t := fun m => h (List.mem_cons_of_mem _ m)
    simp [Gemini.findLF, hb, ih ht]

theorem splitOnceAux_eq_none_of {sep : Char} {l : List Char} (h : sep ∉ l) :
    splitOnceAux sep l = none := by
  induction l with
  | nil => rfl
  | cons c t ih =>
    have hc : c ≠ sep := fun e => h (by simp [e])
    have ht : sep ∉ t := fun m => h (List.mem_cons_of_mem _ m)
    simp [splitOnceAux, hc, ih ht]

theorem utf8DecodeList_ascii_cons {b : Nat} (hb : b < 0x80) (bs : List Nat) :
    utf8DecodeList (b :: bs) = (utf8DecodeList bs).map (fun cs => Char.ofNat b :: cs) := by
  rw [utf8DecodeList.eq_def]
  simp only [if_pos hb]

theorem utf8DecodeList_replicate97 (n : Nat) :
    utf8DecodeList (List.replicate n 97) = some (List.replicate n 'a') := by
  induction n with
  | zero => rfl
  | succ n ih =>
    rw [List.replicate_succ, utf8DecodeList_ascii_cons (by norm_num), ih]
    rfl

theorem dropWhileWs_replicateA (n : Nat) :
    List.dropWhile isRustWhitespace (List.replicate n 'a') = List.replicate n 'a' := by
  cases n with
  | zero => rfl
  | succ n =>
    have ha : isRustWhitespace 'a' = false := rfl
    simp [List.replicate_succ, List.dropWhile_cons, ha]

theorem rustTrim_replicateA (n : Nat) :
    rustTrim ⟨List.replicate n 'a'⟩ = ⟨List.replicate n 'a'⟩ := by
  unfold rustTrim
  rw [stringDataMk, dropWhileWs_replicateA, List.reverse_replicate,
    dropWhileWs_replicateA, List.reverse_replicate]

theorem strByteLen_replicateA (n : Nat) : strByteLen ⟨List.replicate n 'a'⟩ = n := by
  induction n with
  | zero => rfl
  | succ n ih =>
    simp only [strByteLen, utf8Encode, stringDataMk, List.replicate_succ, List.map_cons,
      List.flatten_cons, List.length_append] at ih ⊢
    have h1 : (utf8EncodeChar 'a').length = 1 := rfl
    omega

/-! ## Theorems: response-header parsing -/

/-- C7. Gemini response parsing: the concrete bytes
`"20 text/gemini\r\n# Hello!"` parse to `Success(0)`, meta `"text/gemini"`,
body `"# Hello!"`; the empty input gives `EmptyResponse`, distinct from
`InvalidResponseHeader`; and an input without `\n`, one starting with `\n`,
and one whose decoded header contains no space all give
`InvalidResponseHeader`. -/
theorem c7_gemini_response_parse :
    (Gemini.Response.tryFrom (utf8Encode "20 text/gemini\r\n# Hello!") =
      .ok ⟨.success 0, "text/gemini", utf8Encode "# Hello!"⟩)
    ∧ (Gemini.Response.tryFrom [] = .error .emptyResponse)
    ∧ (Gemini.ResponseParseError.emptyResponse ≠ .invalidResponseHeader)
    ∧ (∀ bs : List Nat, bs ≠ [] → (10 : Nat) ∉ bs →
        Gemini.Response.tryFrom bs = .error .invalidResponseHeader)
    ∧ (∀ bs : List Nat,
        Gemini.Response.tryFrom (10 :: bs) = .error .invalidResponseHeader)
    ∧ (∀ (bs : List Nat) (s : String), bs ≠ [] →
        utf8DecodeStr (bs.take (Gemini.firstLF bs)) = some s → ' ' ∉ s.data →
        Gemini.Response.tryFrom bs = .error .invalidResponseHeader) := by
  refine ⟨rfl, rfl, by decide, ?_, ?_, ?_⟩
  · intro bs hne h10
    have h1 : bs.isEmpty = false := by
      cases bs with
      | nil => exact absurd rfl hne
      | cons a l => rfl
    have h2 : Gemini.firstLF bs = 0 := by
      simp [Gemini.firstLF, findLF_eq_none_of h10]
    simp [Gemini.Response.tryFrom, h1, h2]
  · intro bs
    have h2 : Gemini.firstLF (10 :: bs) = 0 := by simp [Gemini.firstLF, Gemini.findLF]
    simp [Gemini.Response.tryFrom, h2]
  · intro bs s hne hdec hsp
    have h1 : bs.isEmpty = false := by
      cases bs with
      | nil => exact absurd rfl hne
      | cons a l => rfl
    by_cases h0 : Gemini.firstLF bs = 0
    · simp [Gemini.Response.tryFrom, h1, h0]
    · have hsplit : rustSplitOnce s ' ' = none := by
        simp [rustSplitOnce, splitOnceAux_eq_none_of hsp]
      simp [Gemini.Response.tryFrom, h1, h0, hdec, hsplit]

/-- Witness for C7: the hypothesis-bearing conjuncts applied at concrete
inputs — `[65]` has no LF, `[10]` starts with LF, and `[50, 10, 65]` has the
space-free header `"2"`. -/
theorem c7_gemini_response_parse_witness :
    (Gemini.Response.tryFrom [65] = .error .invalidResponseHeader)
    ∧ (Gemini.Response.tryFrom (10 :: [65]) = .error .invalidResponseHeader)
    ∧ (Gemini.Response.tryFrom [50, 10, 65] = .error .invalidResponseHeader) :=
  ⟨c7_gemini_response_parse.2.2.2.1 [65] (by decide) (by decide),
   c7_gemini_response_parse.2.2.2.2.1 [65],
   c7_gemini_response_parse.2.2.2.2.2 [50, 10, 65] "2" (by decide) (by rfl) (by decide)⟩

theorem spartanAcceptsLongMeta (n : Nat) :
    Spartan.Response.tryFrom (([50, 32] ++ List.replicate n 97) ++ [10]) =
      .ok ⟨.success, ⟨List.replicate n 'a'⟩, []⟩ := by
  have h10 : (10 : Nat) ∉ [50, 32] ++ List.replicate n 97 := by
    simp [List.mem_replicate]
  have hlf : Gemini.findLF (([50, 32] ++ List.replicate n 97) ++ [10]) =
      some ([50, 32] ++ List.replicate n 97).length := findLF_append_of [] h10
  have hne : (([50, 32] ++ List.replicate n 97) ++ [10]).isEmpty = false := rfl
  have htake : (([50, 32] ++ List.replicate n 97) ++ [10]).take
      ([50, 32] ++ List.replicate n 97).length = [50, 32] ++ List.replicate n 97 :=
    List.take_left _ _
  have hdec : utf8DecodeList ([50, 32] ++ List.replicate n 97) =
      some ('2' :: ' ' :: List.replicate n 'a') := by
    show utf8DecodeList (50 :: 32 :: List.replicate n 97) = _
    rw [utf8DecodeList_ascii_cons (by norm_num), utf8DecodeList_ascii_cons (by norm_num),
      utf8DecodeList_replicate97]
    rfl
  have hsplit : rustSplitOnce ⟨'2' :: ' ' :: List.replicate n 'a'⟩ ' ' =
      some ("2", ⟨List.replicate n 'a'⟩) := by
    have h2 : ('2' = ' ') = False := by simp
    simp [rustSplitOnce, splitOnceAux, stringDataMk, h2]
  have hdrop : (([50, 32] ++ List.replicate n 97) ++ [10]).drop
      (([50, 32] ++ List.replicate n 97).length + 1) = [] := by
    rw [List.drop_append 1]
    rfl
  have hp : parseU8 "2" = some 2 := rfl
  simp only [Spartan.Response.tryFrom, hne, Bool.false_eq_true, if_false, hlf, htake,
    utf8DecodeStr, hdec, Option.map_some', hsplit, rustTrim_replicateA, hp,
    Spartan.Status.tryFromU8, hdrop]

/-- C4, counterexample. The claim says both the Gemini and the Spartan parser
reject a trimmed meta longer than 1024 bytes; but the Spartan
`Response::try_from` has no meta-length check, and parses a response with a
1025-byte meta successfully. -/
theorem c4_spartan_no_meta_limit_counterexample :
    Spartan.Response.tryFrom (([50, 32] ++ List.replicate 1025 97) ++ [10]) =
      .ok ⟨.success, ⟨List.replicate 1025 'a'⟩, []⟩ :=
  spartanAcceptsLongMeta 1025

/-- C4, amended. Only the Gemini parser enforces the meta limit: a Gemini
response whose decoded header splits into a status and a meta whose trimmed
form is longer than 1024 bytes fails with `InvalidResponseHeader`, while the
Spartan parser performs no such check and accepts, for example, a 2048-byte
meta. -/
theorem c4_meta_length_limit :
    (∀ (bs : List Nat) (s stStr mStr : String), bs ≠ [] →
      utf8DecodeStr (bs.take (Gemini.firstLF bs)) = some s →
      rustSplitOnce s ' ' = some (stStr, mStr) →
      1024 < strByteLen (rustTrim mStr) →
      Gemini.Response.tryFrom bs = .error .invalidResponseHeader)
    ∧ (Spartan.Response.tryFrom (([50, 32] ++ List.replicate 2048 97) ++ [10]) =
        .ok ⟨.success, ⟨List.replicate 2048 'a'⟩, []⟩) := by
  refine ⟨?_, spartanAcceptsLongMeta 2048⟩
  intro bs s stStr mStr hne hdec hsplit hlen
  have h1 : bs.isEmpty = false := by
    cases bs with
    | nil => exact absurd rfl hne
    | cons a l => rfl
  by_cases h0 : Gemini.firstLF bs = 0
  · simp [Gemini.Response.tryFrom, h1, h0]
  · simp [Gemini.Response.tryFrom, h1, h0, hdec, hsplit, hlen]

theorem geminiLongHeaderNe (n : Nat) :
    (([50, 48, 32] ++ List.replicate n 97) ++ [10] : List Nat) ≠ [] := by simp

theorem geminiLongHeaderDecode (n : Nat) :
    utf8DecodeStr ((([50, 48, 32] ++ List.replicate n 97) ++ [10]).take
      (Gemini.firstLF (([50, 48, 32] ++ List.replicate n 97) ++ [10]))) =
      some ⟨'2' :: '0' :: ' ' :: List.replicate n 'a'⟩ := by
  have h10 : (10 : Nat) ∉ [50, 48, 32] ++ List.replicate n 97 := by
    simp [List.mem_replicate]
  have hfl : Gemini.firstLF (([50, 48, 32] ++ List.replicate n 97) ++ [10]) =
      ([50, 48, 32] ++ List.replicate n 97).length := by
    rw [Gemini.firstLF, findLF_append_of [] h10]
    rfl
  rw [hfl, List.take_left, utf8DecodeStr]
  show (utf8DecodeList (50 :: 48 :: 32 :: List.replicate n 97)).map String.mk = _
  rw [utf8DecodeList_ascii_cons (by norm_num), utf8DecodeList_ascii_cons (by norm_num),
    utf8DecodeList_ascii_cons (by norm_num), utf8DecodeList_replicate97]
  rfl

theorem geminiLongHeaderSplit (n : Nat) :
    rustSplitOnce ⟨'2' :: '0' :: ' ' :: List.replicate n 'a'⟩ ' ' =
      some ("20", ⟨List.replicate n 'a'⟩) := by
  have h2 : ('2' = ' ') = False := by simp
  have h0 : ('0' = ' ') = False := by simp
  simp [rustSplitOnce, splitOnceAux, stringDataMk, h2, h0]

theorem longMetaTooLong {n : Nat} (h : 1024 < n) :
    1024 < strByteLen (rustTrim ⟨List.replicate n 'a'⟩) := by
  rw [rustTrim_replicateA, strByteLen_replicateA]
  exact h

/-- Witness for C4: the Gemini conjunct applied to a concrete response with a
1025-byte meta, which is rejected. -/
theorem c4_meta_length_limit_witness :
    Gemini.Response.tryFrom (([50, 48, 32] ++ List.replicate 1025 97) ++ [10]) =
      .error .invalidResponseHeader :=
  c4_meta_length_limit.1 (([50, 48, 32] ++ List.replicate 1025 97) ++ [10])
    ⟨'2' :: '0' :: ' ' :: List.replicate 1025 'a'⟩ "20" ⟨List.replicate 1025 'a'⟩
    (geminiLongHeaderNe 1025) (geminiLongHeaderDecode 1025)
    (geminiLongHeaderSplit 1025) (longMetaTooLong (by norm_num))

/-! ## Theorems: Gopher map termination and classification -/

/-- C8, counterexample. The claim says `parse` considers no lines after the
first `"."` line; but `GopherMap::parse` merely skips a `"."` line
(`parse_line` returns `None` for it) and keeps parsing: the line `ifoo`
placed after the terminator still produces a `Text` node. -/
theorem c8_parse_continues_after_dot_counterexample :
    (Gopher.parseMap ".\nifoo" = .ok [.text "foo"])
    ∧ (Gopher.parseMap "." = .ok []) :=
  ⟨rfl, rfl⟩

/-- C8, amended. `is_map` stops scanning at the first `"."` line, and on
text content returns false as soon as a line before the terminator starts
with an unrecognized character, and true when every line starts with `i`,
`0` or `1`; `parse`, however, only drops `"."` lines and continues parsing
the lines after them. -/
theorem c8_gopher_map_termination :
    (∀ ls rest : List String,
      Gopher.isMapLines (ls ++ "." :: rest) = Gopher.isMapLines (ls ++ ["."]))
    ∧ (∀ rest : List String,
        Gopher.parseMapLines ("." :: rest) = Gopher.parseMapLines rest)
    ∧ (∀ mime page : String, ['t', 'e', 'x', 't'].isPrefixOf mime.data = true →
        Gopher.isMap mime page = Gopher.isMapLines (rustLines page))
    ∧ (∀ (ls : List String) (l : String) (rest : List String),
        "." ∉ ls → l ≠ "." → Gopher.goodGopherStart l = false →
        Gopher.isMapLines (ls ++ l :: rest) = false)
    ∧ (∀ ls : List String,
        (∀ l ∈ ls, startsWithChar l 'i' = true ∨ startsWithChar l '0' = true ∨
          startsWithChar l '1' = true) →
        Gopher.isMapLines ls = true) := by
  refine ⟨?_, ?_, ?_, ?_, ?_⟩
  · intro ls rest
    induction ls with
    | nil => simp [Gopher.isMapLines]
    | cons a t ih =>
      by_cases ha : a = "."
      · simp [Gopher.isMapLines, ha]
      · by_cases hg : Gopher.goodGopherStart a
        · simp [Gopher.isMapLines, ha, hg, ih]
        · simp [Gopher.isMapLines, ha, hg]
  · intro rest
    have hdot : Gopher.LineType.parseLine "." = .ok none := rfl
    rw [Gopher.parseMapLines, hdot]
    cases hr : Gopher.parseMapLines rest with
    | error e => simp [Except.bind, Except.map, hr]
    | ok rs => simp [Except.bind, Except.map, hr]
  · intro mime page h
    simp [Gopher.isMap, h]
  · intro ls l rest hdot hl hg
    induction ls with
    | nil => simp [Gopher.isMapLines, hl, hg]
    | cons a t ih =>
      have ha : a ≠ "." := fun e => hdot (by simp [e])
      have ht : "." ∉ t := fun m => hdot (List.mem_cons_of_mem _ m)
      by_cases hga : Gopher.goodGopherStart a
      · simp [Gopher.isMapLines, ha, hga, ih ht]
      · simp [Gopher.isMapLines, ha, hga]
  · intro ls h
    induction ls with
    | nil => rfl
    | cons a t ih =>
      have ha := h a (by simp)
      have hgood : Gopher.goodGopherStart a = true := by
        rcases ha with ha | ha | ha <;>
          simp [Gopher.goodGopherStart, List.any, ha]
      by_cases hdot : a = "."
      · simp [Gopher.isMapLines, hdot]
      · have ht : ∀ l ∈ t, startsWithChar l 'i' = true ∨ startsWithChar l '0' = true ∨
            startsWithChar l '1' = true := fun l m => h l (List.mem_cons_of_mem _ m)
        simp [Gopher.isMapLines, hdot, hgood, ih ht]

/-- Witness for C8: the hypothesis-bearing conjuncts at concrete inputs — a
non-map line makes `is_map` false, an all-`i`/`0`/`1` list is a map, the MIME
gate and the dot-termination at concrete lists. -/
theorem c8_gopher_map_termination_witness :
    (Gopher.isMapLines (["ia"] ++ "." :: ["zb"]) = Gopher.isMapLines (["ia"] ++ ["."]))
    ∧ (Gopher.isMap "text/plain" "za" = Gopher.isMapLines (rustLines "za"))
    ∧ (Gopher.isMapLines (["ia"] ++ "za" :: ["ib"]) = false)
    ∧ (Gopher.isMapLines ["ia", "0b", "1c"] = true) :=
  ⟨c8_gopher_map_termination.1 ["ia"] ["zb"],
   c8_gopher_map_termination.2.2.1 "text/plain" "za" (by decide),
   c8_gopher_map_termination.2.2.2.1 ["ia"] "za" ["ib"] (by decide) (by decide) (by decide),
   c8_gopher_map_termination.2.2.2.2 ["ia", "0b", "1c"] (by decide)⟩

/-! ## Gopher line-level lemmas for C2 -/

theorem splitOnCharAux_shape (sep : Char) (l : List Char) :
    ∀ acc : List Char, ∃ f rs, splitOnCharAux sep acc l = (acc.reverse ++ f) :: rs := by
  induction l with
  | nil => intro acc; exact ⟨[], [], by simp [splitOnCharAux]⟩
  | cons c cs ih =>
    intro acc
    by_cases hc : c = sep
    · exact ⟨[], splitOnCharAux sep [] cs, by simp [splitOnCharAux, hc]⟩
    · obtain ⟨f, rs, h⟩ := ih (c :: acc)
      exact ⟨c :: f, rs, by simp [splitOnCharAux, hc, h]⟩

theorem rustSplitChar_cons {c : Char} (rest : List Char) (hc : c ≠ '\t') :
    ∃ (f : List Char) (rs : List String),
      rustSplitChar ⟨c :: rest⟩ '\t' = ⟨c :: f⟩ :: rs := by
  obtain ⟨f, rs, h⟩ := splitOnCharAux_shape '\t' rest [c]
  refine ⟨f, rs.map (fun l => (⟨l⟩ : String)), ?_⟩
  simp [rustSplitChar, splitOnCharAux, stringDataMk, hc, h]

theorem stringNeOfHeadNe {c d : Char} {l m : List Char} (h : c ≠ d) :
    (⟨c :: l⟩ : String) ≠ ⟨d :: m⟩ := by
  intro e
  have := congrArg String.data e
  simp [stringDataMk] at this
  exact h this.1

theorem fromLine_ne_error {c : Char} (rest : List Char) (hc : c ≠ '\t')
    (hascii : c.toNat < 128) : Gopher.Link.fromLine ⟨c :: rest⟩ ≠ .error () := by
  obtain ⟨f, rs, hsp⟩ := rustSplitChar_cons rest hc
  simp only [Gopher.Link.fromLine, hsp, Gopher.splitOff1, stringDataMk, hascii, if_pos]
  cases rs with
  | nil => simp
  | cons a t =>
    cases t with
    | nil => simp
    | cons b u =>
      cases u with
      | nil => simp
      | cons d v => simp

theorem fromLine_short {c : Char} (rest : List Char) (hc : c ≠ '\t')
    (hascii : c.toNat < 128)
    (hlen : (rustSplitChar ⟨c :: rest⟩ '\t').length < 4) :
    Gopher.Link.fromLine ⟨c :: rest⟩ = .ok none := by
  obtain ⟨f, rs, hsp⟩ := rustSplitChar_cons rest hc
  rw [hsp] at hlen
  simp only [List.length_cons] at hlen
  simp only [Gopher.Link.fromLine, hsp, Gopher.splitOff1, stringDataMk, hascii, if_pos]
  cases rs with
  | nil => rfl
  | cons a t =>
    cases t with
    | nil => rfl
    | cons b u =>
      cases u with
      | nil => rfl
      | cons d v => simp at hlen; omega

/-- C2, counterexample. The claim says Gopher map parsing never fails, even on
inputs containing empty lines; but `Link::from_line` calls
`String::split_off(1)` on the first tab-field, which panics when that field
is empty, so parsing a text consisting of one empty line panics. -/
theorem c2_empty_line_panics_counterexample : Gopher.parseMap "\n" = .error () := rfl

/-- C2, amended. `parse_line` never fails on a line whose first character is
ASCII and not a tab: it panics exactly on the `split_off(1)` of an empty or
non-ASCII-leading first tab-field (empty lines, lines starting with a tab,
or a non-ASCII character) when the line is not `"."` and not an `i` line.
Lines starting with `i` are always kept as `Text` regardless of field count;
a non-`i`, non-`h`, non-`"."` line with fewer than 4 tab-fields is silently
dropped; and an `h` line with a `URL:` second field is kept with only 2
fields. -/
theorem c2_gopher_parse_no_fail :
    (∀ (c : Char) (rest : List Char), c ≠ '\t' → c.toNat < 128 →
      Gopher.LineType.parseLine ⟨c :: rest⟩ ≠ .error ())
    ∧ (Gopher.LineType.parseLine "" = .error ())
    ∧ (∀ rest : List Char, Gopher.LineType.parseLine ⟨'\t' :: rest⟩ = .error ())
    ∧ (∀ rest : List Char, ∃ s : String,
        Gopher.LineType.parseLine ⟨'i' :: rest⟩ = .ok (some (.text s)))
    ∧ (∀ (c : Char) (rest : List Char), c ≠ '\t' → c.toNat < 128 → c ≠ 'i' →
        c ≠ 'h' → (⟨c :: rest⟩ : String) ≠ "." →
        (rustSplitChar ⟨c :: rest⟩ '\t').length < 4 →
        Gopher.LineType.parseLine ⟨c :: rest⟩ = .ok none)
    ∧ (Gopher.LineType.parseLine "hweb\tURL:http://x" =
        .ok (some (.http ⟨"web", "http://x"⟩))) := by
  refine ⟨?_, rfl, ?_, ?_, ?_, rfl⟩
  · intro c rest hct ha
    have s_i : startsWithChar ⟨c :: rest⟩ 'i' = (c == 'i') := rfl
    have s_7 : startsWithChar ⟨c :: rest⟩ '7' = (c == '7') := rfl
    have s_h : startsWithChar ⟨c :: rest⟩ 'h' = (c == 'h') := rfl
    by_cases hdot : (⟨c :: rest⟩ : String) = "."
    · simp [Gopher.LineType.parseLine, hdot]
    · by_cases hi : c = 'i'
      · subst hi
        obtain ⟨f, rs, hsp⟩ := rustSplitChar_cons rest hct
        simp [Gopher.LineType.parseLine, hdot, s_i, hsp, stringDataMk]
      · by_cases h7 : c = '7'
        · subst h7
          cases hfe : Gopher.Link.fromLine ⟨'7' :: rest⟩ with
          | error e => cases e; exact absurd hfe (fromLine_ne_error rest hct ha)
          | ok o => simp [Gopher.LineType.parseLine, hdot, s_i, hi, s_7, hfe]
        · by_cases hh : c = 'h'
          · subst hh
            obtain ⟨f, rs, hsp⟩ := rustSplitChar_cons rest hct
            cases hfe : Gopher.Link.fromLine ⟨'h' :: rest⟩ with
            | error e => cases e; exact absurd hfe (fromLine_ne_error rest hct ha)
            | ok o =>
              cases rs with
              | nil =>
                simp [Gopher.LineType.parseLine, hdot, s_i, hi, s_7, h7, s_h, hsp,
                  Gopher.splitOff1, stringDataMk, ha, hfe]
              | cons nx t =>
                by_cases hurl : ['U', 'R', 'L', ':'].isPrefixOf nx.data
                · cases hso : rustSplitOnce nx ':' with
                  | none =>
                    simp [Gopher.LineType.parseLine, hdot, s_i, hi, s_7, h7, s_h, hsp,
                      Gopher.splitOff1, stringDataMk, ha, hurl, hso, hfe]
                  | some p =>
                    simp [Gopher.LineType.parseLine, hdot, s_i, hi, s_7, h7, s_h, hsp,
                      Gopher.splitOff1, stringDataMk, ha, hurl, hso]
                · simp [Gopher.LineType.parseLine, hdot, s_i, hi, s_7, h7, s_h, hsp,
                    Gopher.splitOff1, stringDataMk, ha, hurl, hfe]
          · cases hfe : Gopher.Link.fromLine ⟨c :: rest⟩ with
            | error e => cases e; exact absurd hfe (fromLine_ne_error rest hct ha)
            | ok o => simp [Gopher.LineType.parseLine, hdot, s_i, hi, s_7, h7, s_h, hh, hfe]
  · intro rest
    have hdot : (⟨'\t' :: rest⟩ : String) ≠ "." := stringNeOfHeadNe (by decide)
    simp [Gopher.LineType.parseLine, hdot, startsWithChar, stringDataMk,
      Gopher.Link.fromLine, rustSplitChar, splitOnCharAux, Gopher.splitOff1]
  · intro rest
    have hdot : (⟨'i' :: rest⟩ : String) ≠ "." := stringNeOfHeadNe (by decide)
    have s_i : startsWithChar ⟨'i' :: rest⟩ 'i' = true := rfl
    obtain ⟨f, rs, hsp⟩ := rustSplitChar_cons (c := 'i') rest (by decide)
    refine ⟨⟨f⟩, ?_⟩
    simp [Gopher.LineType.parseLine, hdot, s_i, hsp, stringDataMk]
  · intro c rest hct ha hi hh hdot hlen
    have s_i : startsWithChar ⟨c :: rest⟩ 'i' = (c == 'i') := rfl
    have s_7 : startsWithChar ⟨c :: rest⟩ '7' = (c == '7') := rfl
    have s_h : startsWithChar ⟨c :: rest⟩ 'h' = (c == 'h') := rfl
    have hfl := fromLine_short rest hct ha hlen
    by_cases h7 : c = '7'
    · subst h7
      simp [Gopher.LineType.parseLine, hdot, s_i, hi, s_7, hfl]
    · simp [Gopher.LineType.parseLine, hdot, s_i, hi, s_7, h7, s_h, hh, hfl]

/-- Witness for C2: the hypothesis-bearing conjuncts at concrete inputs — the
plain line `"xa"` does not panic, `"itext"` is kept as `Text`, and the
two-field line `"0a\tb"` is dropped. -/
theorem c2_gopher_parse_no_fail_witness :
    (Gopher.LineType.parseLine ⟨'x' :: ['a']⟩ ≠ .error ())
    ∧ (Gopher.LineType.parseLine ⟨'\t' :: ['a']⟩ = .error ())
    ∧ (∃ s : String, Gopher.LineType.parseLine ⟨'i' :: ['t']⟩ = .ok (some (.text s)))
    ∧ (Gopher.LineType.parseLine ⟨'0' :: ['a', '\t', 'b']⟩ = .ok none) :=
  ⟨c2_gopher_parse_no_fail.1 'x' ['a'] (by decide) (by decide),
   c2_gopher_parse_no_fail.2.2.1 ['a'],
   c2_gopher_parse_no_fail.2.2.2.1 ['t'],
   c2_gopher_parse_no_fail.2.2.2.2.1 '0' ['a', '\t', 'b'] (by decide) (by decide)
     (by decide) (by decide) (by decide) (by decide)⟩

/-! ## Line-splitting and gemtext state-machine lemmas for C3 -/

theorem rustLinesAux_no_lf {l : List Char} (h : '\n' ∉ l) :
    ∀ acc : List Char, rustLinesAux acc l =
      if acc = [] ∧ l = [] then [] else [⟨acc.reverse ++ l⟩] := by
  induction l with
  | nil =>
    intro acc
    cases acc with
    | nil => simp [rustLinesAux]
    | cons a t => simp [rustLinesAux]
  | cons c cs ih =>
    intro acc
    have hc : c ≠ '\n' := fun e => h (by simp [e])
    have hcs : '\n' ∉ cs := fun m => h (List.mem_cons_of_mem _ m)
    simp [rustLinesAux, hc, ih hcs (c :: acc)]

theorem rustLinesAux_lf (rest : List Char) : ∀ (l1 acc : List Char), '\n' ∉ l1 →
    rustLinesAux acc (l1 ++ '\n' :: rest) =
      (if (l1.reverse ++ acc).head? = some '\r'
        then (⟨(l1.reverse ++ acc).tail.reverse⟩ : String)
        else ⟨(l1.reverse ++ acc).reverse⟩) :: rustLinesAux [] rest := by
  intro l1
  induction l1 with
  | nil => intro acc h; simp [rustLinesAux]
  | cons c cs ih =>
    intro acc h
    have hc : c ≠ '\n' := fun e => h (by simp [e])
    have hcs : '\n' ∉ cs := fun m => h (List.mem_cons_of_mem _ m)
    simp [rustLinesAux, hc, ih (c :: acc) hcs]

theorem rustLines_pair {l1 l2 : List Char} (h1 : '\n' ∉ l1) (hr : '\r' ∉ l1)
    (h2 : '\n' ∉ l2) (hne : l2 ≠ []) :
    rustLines ⟨l1 ++ '\n' :: l2⟩ = [⟨l1⟩, ⟨l2⟩] := by
  rw [rustLines, stringDataMk, rustLinesAux_lf l2 l1 [] h1]
  have hh : ¬ (l1.reverse ++ ([] : List Char)).head? = some '\r' := by
    simp only [List.append_nil, List.head?_reverse]
    intro e
    exact hr (List.mem_of_mem_getLast? e)
  rw [if_neg hh, rustLinesAux_no_lf h2 []]
  simp [hne]

theorem rustLines_preBlock {u : List Char} (h2 : '\n' ∉ u) (hr : '\r' ∉ u) :
    rustLines ⟨'`' :: '`' :: '`' :: '\n' :: (u ++ '\n' :: '`' :: '`' :: '`' :: [])⟩ =
      ["```", ⟨u⟩, "```"] := by
  have e : ('`' :: '`' :: '`' :: '\n' :: (u ++ '\n' :: '`' :: '`' :: '`' :: []) : List Char) =
      ['`', '`', '`'] ++ '\n' :: (u ++ '\n' :: ['`', '`', '`']) := by simp
  rw [rustLines, stringDataMk, e, rustLinesAux_lf _ ['`', '`', '`'] [] (by decide)]
  rw [rustLinesAux_lf _ u [] h2]
  have hh : ¬ (u.reverse ++ ([] : List Char)).head? = some '\r' := by
    simp only [List.append_nil, List.head?_reverse]
    intro hVal
    exact hr (List.mem_of_mem_getLast? hVal)
  rw [if_neg hh]
  have haux : rustLinesAux ([] : List Char) ['`', '`', '`'] = ["```"] := rfl
  simp [haux]

theorem lineRun_blockquote (cs : List Char) : ∀ t1 t2 pt : List Char,
    Gemtext.lineRun .blockquote t1 t2 pt cs = (.blockquote, t1 ++ cs, t2, pt) := by
  induction cs with
  | nil => intro t1 t2 pt; simp [Gemtext.lineRun]
  | cons c cs ih =>
    intro t1 t2 pt
    simp [Gemtext.lineRun, Gemtext.lineStep, ih]

theorem lineRun_from_gt (s pt : List Char) :
    Gemtext.lineRun .searching [] [] pt ('>' :: ' ' :: s) = (.blockquote, s, [], pt) := by
  have hws : isRustWhitespace ' ' = true := rfl
  simp [Gemtext.lineRun, Gemtext.lineStep, hws, lineRun_blockquote]

theorem trim_nonempty_head {c : Char} (l : List Char) (hc : isRustWhitespace c = false) :
    ((rustTrim ⟨c :: l⟩).data).isEmpty = false := by
  simp only [rustTrim, stringDataMk, List.dropWhile_cons, hc, Bool.false_eq_true, if_false]
  have hne : (c :: l).reverse.dropWhile isRustWhitespace ≠ [] := by
    rw [ne_eq, List.dropWhile_eq_nil_iff]
    push_neg
    exact ⟨c, by simp, by simp [hc]⟩
  have hrev : ((c :: l).reverse.dropWhile isRustWhitespace).reverse ≠ [] := by
    simpa [List.reverse_eq_nil_iff] using hne
  cases hls : ((c :: l).reverse.dropWhile isRustWhitespace).reverse with
  | nil => exact absurd hls hrev
  | cons a t => simp [hls]

theorem parseGem_blockquote_line (s pText pt : List Char) (hasType : Bool)
    (ls : List String) :
    Gemtext.parseLinesGem false hasType pText pt (⟨'>' :: ' ' :: s⟩ :: ls) =
      (Gemtext.parseLinesGem false hasType pText pt ls).map
        (fun rest => .blockquote ⟨s⟩ :: rest) := by
  have htrim := trim_nonempty_head (' ' :: s) (show isRustWhitespace '>' = false from rfl)
  simp only [Gemtext.parseLinesGem, Bool.false_eq_true, if_false, stringDataMk, htrim,
    lineRun_from_gt, Gemtext.lineCleanup, Except.bind]

theorem parseGem_ticks_open (pText pt : List Char) (hasType : Bool) (ls : List String) :
    Gemtext.parseLinesGem false hasType pText pt ("```" :: ls) =
      Gemtext.parseLinesGem true false pText [] ls := by
  have htrim := trim_nonempty_head ['`', '`'] (show isRustWhitespace '`' = false from rfl)
  have hrun : Gemtext.lineRun .searching [] [] pt ("```".data) =
      (.preformattedTextType, [], [], []) := rfl
  simp only [Gemtext.parseLinesGem, Bool.false_eq_true, if_false, htrim, hrun,
    Gemtext.lineCleanup, Except.bind, List.isEmpty_nil, Bool.not_true]

theorem parseGem_inpre_accum {u : List Char} (hne3 : (['`', '`', '`'].isPrefixOf u) = false)
    (pText pt : List Char) (hasType : Bool) (ls : List String) :
    Gemtext.parseLinesGem true hasType pText pt (⟨u⟩ :: ls) =
      Gemtext.parseLinesGem true hasType (pText ++ u ++ ['\n']) pt ls := by
  simp only [Gemtext.parseLinesGem, stringDataMk, hne3, Bool.false_eq_true, if_false, if_true]

theorem parseGem_ticks_close (pText pt : List Char) (hasType : Bool) (ls : List String) :
    Gemtext.parseLinesGem true hasType pText pt ("```" :: ls) =
      (Gemtext.parseLinesGem false hasType [] pt ls).map
        (fun rest =>
          (if hasType then Gemtext.GemtextNode.preformatted ⟨pText⟩ (some ⟨pt⟩)
            else Gemtext.GemtextNode.preformatted ⟨pText⟩ none) :: rest) := by
  have hpre : (['`', '`', '`'].isPrefixOf ("```".data)) = true := rfl
  simp only [Gemtext.parseLinesGem, hpre, if_true]

/-! ## Theorems: gemtext blockquote and preformatted shape -/

/-- C3, counterexample. The claim says consecutive `>` lines merge into one
Blockquote node and that Blockquote/Preformatted bodies have their trailing
newline trimmed; but the parser emits one Blockquote per `>` line (the
two-line quote gives two nodes) and the Preformatted body keeps the trailing
newline of every accumulated line (`"x\n"`, exactly as the repository's own
parser test expects). -/
theorem c3_no_merge_no_trim_counterexample :
    (Gemtext.parseGemtext "> a\n> b" = .ok [.blockquote "a", .blockquote "b"])
    ∧ (Gemtext.parseGemtext "```\nx\n```" = .ok [.preformatted "x\n" none]) :=
  ⟨rfl, rfl⟩

/-- C3, amended. Each line starting with `>` followed by a whitespace yields
its own Blockquote node — consecutive quote lines are not merged — and a
preformatted block's body keeps one trailing newline per accumulated line
(nothing is trimmed): for any newline-free line contents `s`, `t` and any
fence-free line `u`, parsing `"> s\n> t"` gives exactly
`[Blockquote s, Blockquote t]` and parsing `"```\nu\n```"` gives exactly
`[Preformatted (u ++ "\n") none]`. -/
theorem c3_blockquote_preformatted_shape :
    (∀ s t : List Char, '\n' ∉ s → '\r' ∉ s → '\n' ∉ t →
      Gemtext.parseGemtext ⟨'>' :: ' ' :: (s ++ '\n' :: '>' :: ' ' :: t)⟩ =
        .ok [.blockquote ⟨s⟩, .blockquote ⟨t⟩])
    ∧ (∀ u : List Char, '\n' ∉ u → '\r' ∉ u →
        (['`', '`', '`'].isPrefixOf u) = false →
        Gemtext.parseGemtext ⟨'`' :: '`' :: '`' :: '\n' :: (u ++ '\n' :: '`' :: '`' :: '`' :: [])⟩ =
          .ok [.preformatted ⟨u ++ ['\n']⟩ none]) := by
  constructor
  · intro s t h1n h1r h2n
    have e : ('>' :: ' ' :: (s ++ '\n' :: '>' :: ' ' :: t) : List Char) =
        ('>' :: ' ' :: s) ++ '\n' :: ('>' :: ' ' :: t) := by simp
    have hl1 : '\n' ∉ ('>' :: ' ' :: s : List Char) := by simp [h1n]
    have hr1 : '\r' ∉ ('>' :: ' ' :: s : List Char) := by simp [h1r]
    have hl2 : '\n' ∉ ('>' :: ' ' :: t : List Char) := by simp [h2n]
    rw [Gemtext.parseGemtext, e, rustLines_pair hl1 hr1 hl2 (by simp),
      parseGem_blockquote_line, parseGem_blockquote_line]
    rfl
  · intro u hn hr hp
    rw [Gemtext.parseGemtext, rustLines_preBlock hn hr, parseGem_ticks_open,
      parseGem_inpre_accum hp, parseGem_ticks_close]
    rfl

/-- Witness for C3: the amended statement applied at the concrete lines
`"> x"`, `"> y"` and the preformatted body line `"z"`. -/
theorem c3_blockquote_preformatted_shape_witness :
    (Gemtext.parseGemtext ⟨'>' :: ' ' :: (['x'] ++ '\n' :: '>' :: ' ' :: ['y'])⟩ =
      .ok [.blockquote ⟨['x']⟩, .blockquote ⟨['y']⟩])
    ∧ (Gemtext.parseGemtext
        ⟨'`' :: '`' :: '`' :: '\n' :: (['z'] ++ '\n' :: '`' :: '`' :: '`' :: [])⟩ =
        .ok [.preformatted ⟨['z'] ++ ['\n']⟩ none]) :=
  ⟨c3_blockquote_preformatted_shape.1 ['x'] ['y'] (by decide) (by decide) (by decide),
   c3_blockquote_preformatted_shape.2 ['z'] (by decide) (by decide) (by decide)⟩
